import Mathlib

/-!
Shallow embedding of the multi-provider streaming adapter of this
repository: the data model from `types.ts` and the adapter logic of
`streamGemini`, `streamOpenAI` and `generateImage` from the service
module, together with theorems checking the specification's claims.

JavaScript strings are modelled as Lean `String` / `List Char`
(fragmentation of the response byte stream is modelled at character
granularity; the source's `TextDecoder` with `stream: true` guarantees
that UTF-8 code points split across reads are reassembled, so character
granularity is the faithful abstraction level).  Optional fields become
`Option`, JS falsiness of optional strings is modelled explicitly.
-/

set_option maxRecDepth 4096

namespace Studio

/-- The `Role` enum from `types.ts`. -/
inductive Role where
  | USER
  | MODEL
  | SYSTEM
  deriving DecidableEq

/-- The `ChatMessage` interface from `types.ts` (`images` and `isError`
are optional fields). -/
structure ChatMessage where
  id : String
  role : Role
  text : String
  timestamp : Nat
  images : Option (List String) := none
  isError : Option Bool := none
  deriving DecidableEq

/-- The `ProviderType` union from `types.ts`. -/
inductive ProviderType where
  | gemini
  | openai
  deriving DecidableEq

/-- The `AIProvider` interface from `types.ts`. -/
structure AIProvider where
  id : String
  name : String
  type : ProviderType
  baseUrl : Option String := none
  apiKey : Option String := none
  modelId : String
  isSystem : Option Bool := none
  deriving DecidableEq

/-- JS falsiness of an optional string (`!s`): `undefined` and the empty
string are falsy, every other string is truthy. -/
def strFalsy : Option String → Bool
  | none => true
  | some s => s == ""

/-- The `ModelName` enum from `types.ts`. -/
def ModelName.FLASH : String := "gemini-2.5-flash"

/-- The `ModelName.PRO` member from `types.ts`. -/
def ModelName.PRO : String := "gemini-3-pro-preview"

/-- The `ModelName.IMAGEN` member from `types.ts`. -/
def ModelName.IMAGEN : String := "imagen-4.0-generate-001"

/-! ### Managed-protocol (Gemini) adapter -/

/-- A content part sent to the managed SDK: either a text part or an
inline-data (image) part. -/
inductive GeminiPart where
  | text (t : String)
  | inlineData (mimeType : String) (data : String)
  deriving DecidableEq

/-- One entry of the `history` passed to `ai.chats.create`. -/
structure GeminiContent where
  role : String
  parts : List GeminiPart
  deriving DecidableEq

/-- The per-message projection inside `streamGemini`'s `prevHistory`
mapping: role `user`/`model`, and parts `[text]` or
`[text, ...images]` depending on `msg.images && msg.images.length > 0`. -/
def geminiContentOf (msg : ChatMessage) : GeminiContent :=
  { role := if msg.role = Role.USER then "user" else "model"
    parts :=
      match msg.images with
      | some imgs =>
        if imgs.length > 0 then
          GeminiPart.text msg.text
            :: imgs.map (fun img => GeminiPart.inlineData "image/jpeg" img)
        else [GeminiPart.text msg.text]
      | none => [GeminiPart.text msg.text] }

/-- `prevHistory` from `streamGemini`: `history.slice(0, -1).map(...)`,
i.e. every history turn except the last one, projected to SDK content. -/
def prevHistory (history : List ChatMessage) : List GeminiContent :=
  history.dropLast.map geminiContentOf

/-- The `parts` array `streamGemini` builds for the new user turn:
`[{ text: newMessage }]` followed by one inline-data part per image. -/
def newTurnParts (newMessage : String) (newImages : List String) : List GeminiPart :=
  GeminiPart.text newMessage
    :: newImages.map (fun img => GeminiPart.inlineData "image/jpeg" img)

/-- The argument shape of `chat.sendMessageStream({ message: ... })`:
either a bare string or a list of parts. -/
inductive SendMessageArg where
  | ofString (s : String)
  | ofParts (ps : List GeminiPart)
  deriving DecidableEq

/-- The `message` value `streamGemini` submits:
`parts.length === 1 ? parts[0].text : parts` (and `parts[0]` is
`{ text: newMessage }`). -/
def sendMessagePayload (newMessage : String) (newImages : List String) : SendMessageArg :=
  let parts := newTurnParts newMessage newImages
  if parts.length == 1 then SendMessageArg.ofString newMessage
  else SendMessageArg.ofParts parts

/-- The chunk loop of `streamGemini`: each received chunk may carry a
`text` field; when it is truthy (present and non-empty) the code runs
`responseText += c.text; onChunk(responseText)`.  Returns the final
`responseText` together with the list of `onChunk` arguments in order. -/
def geminiStream (chunks : List (Option String)) : String × List String :=
  chunks.foldl
    (fun acc c =>
      match c with
      | some t => if t == "" then acc else (acc.1 ++ t, acc.2 ++ [acc.1 ++ t])
      | none => acc)
    ("", [])

/-! ### JSON values and `JSON.parse`

`streamOpenAI` runs `JSON.parse` on the payload of each complete
`data:` line.  The model below implements the JSON grammar (the same
grammar `JSON.parse` accepts): literals, numbers (kept as their
lexeme — their numeric value is never used by the adapter), strings
with escapes, arrays and objects.  Parsing is fuelled; the initial fuel
`2 * length + 2` dominates the recursion depth, which consumes at least
one input character every two nested calls. -/

/-- JSON value tree produced by the parse model. -/
inductive Json where
  | null
  | bool (b : Bool)
  | num (lexeme : String)
  | str (s : String)
  | arr (elems : List Json)
  | obj (fields : List (String × Json))

/-- Decimal digit test used by the JSON number grammar. -/
def isJsonDigit (c : Char) : Bool := '0' ≤ c && c ≤ '9'

/-- Hexadecimal digit value, for `\uXXXX` escapes. -/
def hexDigit (c : Char) : Option Nat :=
  if '0' ≤ c && c ≤ '9' then some (c.toNat - 48)
  else if 'a' ≤ c && c ≤ 'f' then some (c.toNat - 87)
  else if 'A' ≤ c && c ≤ 'F' then some (c.toNat - 55)
  else none

/-- Skip JSON insignificant whitespace (space, tab, LF, CR). -/
def skipWs (s : List Char) : List Char :=
  s.dropWhile (fun c => c == ' ' || c == '\t' || c == '\n' || c == '\r')

/-- Boolean test that `pre` is a prefix of `s` (JS `startsWith`). -/
def listStartsWith : List Char → List Char → Bool
  | [], _ => true
  | _ :: _, [] => false
  | p :: ps, c :: cs => p == c && listStartsWith ps cs

/-- Parse the body of a JSON string (the opening quote already
consumed); returns the decoded characters and the rest of the input.
Surrogate pairs in `\u` escapes are not recombined (the adapter's
payloads never rely on them). -/
def parseJsonString : Nat → List Char → Option (List Char × List Char)
  | 0, _ => none
  | _ + 1, [] => none
  | fuel + 1, c :: rest =>
    if c = '"' then some ([], rest)
    else if c = '\\' then
      match rest with
      | [] => none
      | e :: rest2 =>
        let esc : Option Char :=
          if e = '"' then some '"'
          else if e = '\\' then some '\\'
          else if e = '/' then some '/'
          else if e = 'b' then some (Char.ofNat 8)
          else if e = 'f' then some (Char.ofNat 12)
          else if e = 'n' then some '\n'
          else if e = 'r' then some '\r'
          else if e = 't' then some '\t'
          else none
        match esc with
        | some ch =>
          match parseJsonString fuel rest2 with
          | some (s, r) => some (ch :: s, r)
          | none => none
        | none =>
          if e = 'u' then
            match rest2 with
            | h1 :: h2 :: h3 :: h4 :: rest3 =>
              match hexDigit h1, hexDigit h2, hexDigit h3, hexDigit h4 with
              | some d1, some d2, some d3, some d4 =>
                match parseJsonString fuel rest3 with
                | some (s, r) =>
                  some (Char.ofNat (((d1 * 16 + d2) * 16 + d3) * 16 + d4) :: s, r)
                | none => none
              | _, _, _, _ => none
            | _ => none
          else none
    else if c.toNat < 32 then none
    else
      match parseJsonString fuel rest with
      | some (s, r) => some (c :: s, r)
      | none => none

/-- Lex the optional fraction part `.digits` of a JSON number. -/
def lexFrac (s : List Char) : Option (List Char × List Char) :=
  match s with
  | '.' :: r =>
    let ds := r.takeWhile isJsonDigit
    if ds.isEmpty then none else some ('.' :: ds, r.dropWhile isJsonDigit)
  | _ => some ([], s)

/-- Lex the optional exponent part `[eE][+-]?digits` of a JSON number. -/
def lexExp (s : List Char) : Option (List Char × List Char) :=
  match s with
  | c :: r =>
    if c = 'e' || c = 'E' then
      let signAndRest : List Char × List Char :=
        match r with
        | '+' :: r2 => (['+'], r2)
        | '-' :: r2 => (['-'], r2)
        | _ => ([], r)
      let ds := signAndRest.2.takeWhile isJsonDigit
      if ds.isEmpty then none
      else some (c :: signAndRest.1 ++ ds, signAndRest.2.dropWhile isJsonDigit)
    else some ([], s)
  | [] => some ([], [])

/-- Lex a JSON number `-?(0|[1-9][0-9]*)(\.[0-9]+)?([eE][+-]?[0-9]+)?`;
returns the lexeme and the rest of the input. -/
def lexJsonNumber (s : List Char) : Option (List Char × List Char) :=
  let negAndRest : List Char × List Char :=
    match s with
    | '-' :: r => (['-'], r)
    | _ => ([], s)
  match negAndRest.2 with
  | c :: r =>
    let intAndRest : Option (List Char × List Char) :=
      if c = '0' then some (['0'], r)
      else if isJsonDigit c then some (c :: r.takeWhile isJsonDigit, r.dropWhile isJsonDigit)
      else none
    match intAndRest with
    | some (ip, r1) =>
      match lexFrac r1 with
      | some (fp, r2) =>
        match lexExp r2 with
        | some (ep, r3) => some (negAndRest.1 ++ ip ++ fp ++ ep, r3)
        | none => none
      | none => none
    | none => none
  | [] => none

mutual

/-- Parse one JSON value (leading whitespace allowed); returns the value
and the unconsumed rest of the input. -/
def parseJsonValue : Nat → List Char → Option (Json × List Char)
  | 0, _ => none
  | fuel + 1, input =>
    let s := skipWs input
    match s with
    | [] => none
    | c :: rest =>
      if c = '"' then
        match parseJsonString fuel rest with
        | some (cs, r) => some (Json.str (String.mk cs), r)
        | none => none
      else if listStartsWith ['t', 'r', 'u', 'e'] s then some (Json.bool true, s.drop 4)
      else if listStartsWith ['f', 'a', 'l', 's', 'e'] s then some (Json.bool false, s.drop 5)
      else if listStartsWith ['n', 'u', 'l', 'l'] s then some (Json.null, s.drop 4)
      else if c = '[' then
        match skipWs rest with
        | ']' :: r => some (Json.arr [], r)
        | s1 =>
          match parseJsonArrayItems fuel s1 with
          | some (items, r) => some (Json.arr items, r)
          | none => none
      else if c = '{' then
        match skipWs rest with
        | '}' :: r => some (Json.obj [], r)
        | s1 =>
          match parseJsonObjectItems fuel s1 with
          | some (fields, r) => some (Json.obj fields, r)
          | none => none
      else
        match lexJsonNumber s with
        | some (lexeme, r) => some (Json.num (String.mk lexeme), r)
        | none => none

/-- Parse the non-empty item list of a JSON array (after `[`). -/
def parseJsonArrayItems : Nat → List Char → Option (List Json × List Char)
  | 0, _ => none
  | fuel + 1, s =>
    match parseJsonValue fuel s with
    | none => none
    | some (v, r) =>
      match skipWs r with
      | ',' :: r2 =>
        match parseJsonArrayItems fuel r2 with
        | some (vs, r3) => some (v :: vs, r3)
        | none => none
      | ']' :: r2 => some ([v], r2)
      | _ => none

/-- Parse the non-empty member list of a JSON object (after `{`). -/
def parseJsonObjectItems : Nat → List Char → Option (List (String × Json) × List Char)
  | 0, _ => none
  | fuel + 1, s =>
    match skipWs s with
    | '"' :: r =>
      match parseJsonString fuel r with
      | some (key, r1) =>
        match skipWs r1 with
        | ':' :: r2 =>
          match parseJsonValue fuel r2 with
          | none => none
          | some (v, r3) =>
            match skipWs r3 with
            | ',' :: r4 =>
              match parseJsonObjectItems fuel r4 with
              | some (fs, r5) => some ((String.mk key, v) :: fs, r5)
              | none => none
            | '}' :: r4 => some ([(String.mk key, v)], r4)
            | _ => none
        | _ => none
      | none => none
    | _ => none

end

/-- `JSON.parse` model: parse one value and require only whitespace to
remain. -/
def jsonParse (s : List Char) : Option Json :=
  match parseJsonValue (2 * s.length + 2) s with
  | some (v, r) => if (skipWs r).isEmpty then some v else none
  | none => none

/-- Object member lookup with `JSON.parse` duplicate-key semantics: the
last member with the given key wins. -/
def lookupLast : List (String × Json) → String → Option Json
  | [], _ => none
  | (k, v) :: rest, key =>
    match lookupLast rest key with
    | some r => some r
    | none => if k == key then some v else none

/-- Optional-chaining property access `j?.key`: defined only on objects. -/
def jsonField (j : Json) (key : String) : Option Json :=
  match j with
  | Json.obj fields => lookupLast fields key
  | _ => none

/-- Optional-chaining index access `j?.[0]`.  On an array it is the
first element; on an object, JS coerces the index to the key `"0"`.
On a string, JS yields its first character, whose `.delta` is then
`undefined` — equivalent to `none` downstream, which is how it is
modelled here. -/
def jsonIndex0 (j : Json) : Option Json :=
  match j with
  | Json.arr (v :: _) => some v
  | Json.obj fields => lookupLast fields "0"
  | _ => none

/-- The extraction `json.choices?.[0]?.delta?.content` from
`streamOpenAI`.  Yields the content only when it is a JSON string; a
non-string `content` is modelled as `none` (for the falsy JS values
`null`/`false`/`0` this agrees exactly with the source's `|| ''`
fallback, which also suppresses them). -/
def extractDeltaContent (j : Json) : Option String :=
  match jsonField j "choices" with
  | none => none
  | some choices =>
    match jsonIndex0 choices with
    | none => none
    | some first =>
      match jsonField first "delta" with
      | none => none
      | some delta =>
        match jsonField delta "content" with
        | some (Json.str s) => some s
        | _ => none

/-! ### OpenAI-compatible adapter (`streamOpenAI`) -/

/-- One entry of the `messages` array sent to `/chat/completions`. -/
structure OAIMessage where
  role : String
  content : String
  deriving DecidableEq

/-- The per-message projection inside `streamOpenAI`'s `apiMessages`
mapping: `role: msg.role === Role.MODEL ? 'assistant' : 'user'`,
`content: msg.text` (images are dropped). -/
def oaiMessageOf (msg : ChatMessage) : OAIMessage :=
  { role := if msg.role = Role.MODEL then "assistant" else "user"
    content := msg.text }

/-- `apiMessages` from `streamOpenAI`: every history turn projected,
then the new user message pushed at the end. -/
def apiMessages (history : List ChatMessage) (newMessage : String) : List OAIMessage :=
  history.map oaiMessageOf ++ [{ role := "user", content := newMessage }]

/-- `messagesWithSystem` from `streamOpenAI`: the system prompt
prepended to `apiMessages`. -/
def messagesWithSystem (history : List ChatMessage) (newMessage : String) : List OAIMessage :=
  { role := "system"
    content := "You are a helpful, professional AI assistant. Output in Markdown." }
    :: apiMessages history newMessage

/-- The whitespace class removed by JS `String.prototype.trim` (ASCII
whitespace, NBSP and the BOM; more exotic Unicode spaces never occur in
SSE lines). -/
def jsTrimChar (c : Char) : Bool :=
  c == ' ' || c == '\t' || c == '\n' || c == '\r'
    || c == Char.ofNat 11 || c == Char.ofNat 12
    || c == Char.ofNat 160 || c == Char.ofNat 65279

/-- JS `line.trim()`: strip leading and trailing whitespace. -/
def jsTrim (s : List Char) : List Char :=
  ((s.dropWhile jsTrimChar).reverse.dropWhile jsTrimChar).reverse

/-- JS `s.replace(pat, '')` for a non-empty plain-string pattern: remove
the first occurrence of `pat`, if any. -/
def replaceFirst (pat : List Char) : List Char → List Char
  | [] => []
  | c :: cs =>
    if listStartsWith pat (c :: cs) then (c :: cs).drop pat.length
    else c :: replaceFirst pat cs

/-- The body of `streamOpenAI`'s `for (const line of lines)` loop, acting
on the pair (running `fullText`, list of `onChunk` arguments so far):
trim the line; if it starts with `data: ` and is not the `[DONE]`
sentinel, `JSON.parse` the line with the first `data: ` removed; on
success extract `choices?.[0]?.delta?.content || ''`; a truthy content
is appended to `fullText` and `onChunk(fullText)` is recorded.  Parse
failures are swallowed. -/
def processLine (acc : String × List String) (line : List Char) : String × List String :=
  let trimmed := jsTrim line
  if listStartsWith "data: ".data trimmed && trimmed != "data: [DONE]".data then
    match jsonParse (replaceFirst "data: ".data trimmed) with
    | some j =>
      let content := (extractDeltaContent j).getD ""
      if content == "" then acc
      else (acc.1 ++ content, acc.2 ++ [acc.1 ++ content])
    | none => acc
  else acc

/-- JS `buffer.split('\n')`: the resulting list of lines (always
non-empty; the last entry is the text after the final newline). -/
def splitLines : List Char → List (List Char)
  | [] => [[]]
  | c :: cs =>
    let rest := splitLines cs
    if c = '\n' then [] :: rest
    else (c :: rest.headD []) :: rest.tail

/-- One iteration of `streamOpenAI`'s read loop on state
(accumulator state, carry-over `buffer`): append the decoded read to the
buffer, split on newlines, put the last (possibly incomplete) fragment
back into the buffer (`lines.pop() || ''`), and run `processLine` over
the complete lines in order. -/
def feedRead (st : (String × List String) × List Char) (chunk : List Char) :
    (String × List String) × List Char :=
  let lines := splitLines (st.2 ++ chunk)
  (lines.dropLast.foldl processLine st.1, lines.getLastD [])

/-- The whole read loop of `streamOpenAI` over the decoded reads of the
response body, starting from an empty accumulator and an empty buffer.
The first component is the final (`fullText`, `onChunk` trace); the
second is the unterminated trailing buffer, which the source discards
on exhaustion. -/
def processBody (chunks : List (List Char)) : (String × List String) × List Char :=
  chunks.foldl feedRead (("", []), [])

/-- Resolution of a modelled adapter call: JS resolve / reject. -/
inductive Outcome where
  | ok (value : String)
  | error (msg : String)
  deriving DecidableEq

/-- The observable parts of the `fetch` response that `streamOpenAI`
consumes: `ok`, `status`, the body text read in the error path, whether
a readable body exists, and the decoded reads of the streamed body. -/
structure FetchResponse where
  ok : Bool
  status : Nat
  errorBody : String := ""
  hasBody : Bool := true
  chunks : List (List Char) := []
  deriving DecidableEq

/-- The observable result of one `streamOpenAI` call: whether `fetch`
was reached, the request messages when it was, the ordered `onChunk`
arguments, and the resolution. -/
structure StreamRun where
  fetched : Bool
  request : Option (List OAIMessage) := none
  onChunkCalls : List String := []
  outcome : Outcome
  deriving DecidableEq

/-- `streamOpenAI`: fail fast when `!provider.apiKey || !provider.baseUrl`
(no fetch, no chunks); otherwise fetch, fail on `!response.ok` with
`Provider Error (status): body`, fail on a missing body, and otherwise
run the SSE read loop and resolve with its accumulator. -/
def streamOpenAI (history : List ChatMessage) (newMessage : String)
    (provider : AIProvider) (response : FetchResponse) : StreamRun :=
  if strFalsy provider.apiKey || strFalsy provider.baseUrl then
    { fetched := false
      outcome := Outcome.error "API Key or Base URL missing for custom provider." }
  else if !response.ok then
    { fetched := true
      request := some (messagesWithSystem history newMessage)
      outcome := Outcome.error
        ("Provider Error (" ++ toString response.status ++ "): " ++ response.errorBody) }
  else if !response.hasBody then
    { fetched := true
      request := some (messagesWithSystem history newMessage)
      outcome := Outcome.error "No response body" }
  else
    let result := (processBody response.chunks).1
    { fetched := true
      request := some (messagesWithSystem history newMessage)
      onChunkCalls := result.2
      outcome := Outcome.ok result.1 }

/-! ### Image generation (`generateImage`) -/

/-- The nested payload `generatedImages?.[0]?.image?.imageBytes` of the
SDK's image response. -/
structure ImagePayload where
  imageBytes : Option String := none
  deriving DecidableEq

/-- One entry of `response.generatedImages`. -/
structure GeneratedImage where
  image : Option ImagePayload := none
  deriving DecidableEq

/-- The SDK response consumed by `generateImage`. -/
structure GenerateImagesResponse where
  generatedImages : Option (List GeneratedImage) := none
  deriving DecidableEq

/-- The configuration block of the request `generateImage` issues. -/
structure ImagenConfig where
  numberOfImages : Nat
  outputMimeType : String
  aspectRatio : String
  deriving DecidableEq

/-- The request `generateImage` issues via `ai.models.generateImages`. -/
structure ImagenRequest where
  model : String
  prompt : String
  config : ImagenConfig
  deriving DecidableEq

/-- The request built by `generateImage(prompt, aspectRatio)`:
the Imagen model, one image, JPEG output, caller's aspect ratio. -/
def generateImageRequest (prompt : String) (aspectRatio : String) : ImagenRequest :=
  { model := ModelName.IMAGEN
    prompt := prompt
    config :=
      { numberOfImages := 1
        outputMimeType := "image/jpeg"
        aspectRatio := aspectRatio } }

/-- The optional chaining `response.generatedImages?.[0]?.image?.imageBytes`. -/
def extractImageBytes (response : GenerateImagesResponse) : Option String :=
  match response.generatedImages with
  | some (g :: _) =>
    match g.image with
    | some payload => payload.imageBytes
    | none => none
  | _ => none

/-- The result path of `generateImage`: throw `No image generated` when
the extracted bytes are falsy, else resolve with the data URI
`data:image/jpeg;base64,` ++ bytes. -/
def generateImage (prompt : String) (aspectRatio : String)
    (response : GenerateImagesResponse) : Outcome :=
  let base64EncodeString := extractImageBytes response
  if strFalsy base64EncodeString then Outcome.error "No image generated"
  else Outcome.ok ("data:image/jpeg;base64," ++ base64EncodeString.getD "")

/-! ### Auxiliary notions for the theorems -/

/-- Fused form of the split used by the read loop: `scanLines s`
returns the complete (newline-terminated) lines of `s` together with
the unterminated trailing fragment.  It is proved below to coincide
with `((splitLines s).dropLast, (splitLines s).getLastD [])`. -/
def scanLines : List Char → List (List Char) × List Char
  | [] => ([], [])
  | c :: cs =>
    let p := scanLines cs
    if c = '\n' then ([] :: p.1, p.2)
    else
      match p.1 with
      | [] => ([], c :: p.2)
      | l :: ls => ((c :: l) :: ls, p.2)

/-- `needle` occurs contiguously inside `hay`. -/
def occursIn (needle hay : List Char) : Prop :=
  ∃ pre post, hay = pre ++ needle ++ post

/-- Sample user turn carrying two images. -/
def sampleUserMsg : ChatMessage :=
  { id := "1", role := Role.USER, text := "hello", timestamp := 0
    images := some ["AAA", "BBB"] }

/-- Sample model turn without images. -/
def sampleModelMsg : ChatMessage :=
  { id := "2", role := Role.MODEL, text := "draft", timestamp := 1 }

/-- Sample OpenAI-compatible provider with key and base URL configured. -/
def sampleProvider : AIProvider :=
  { id := "deepseek-chat", name := "DeepSeek V3", type := ProviderType.openai
    baseUrl := some "https://api.deepseek.com", apiKey := some "sk-test"
    modelId := "deepseek-chat" }

/-- Sample OpenAI-compatible provider with no API key configured. -/
def keylessProvider : AIProvider :=
  { id := "kimi-8k", name := "Kimi / Moonshot", type := ProviderType.openai
    baseUrl := some "https://api.moonshot.cn/v1"
    modelId := "moonshot-v1-8k" }

/-- First SSE line of the specification's compatible-adapter example. -/
def sseLine1 : List Char :=
  ("data: \x7b\"choices\":[\x7b\"delta\":\x7b\"content\":\"Hi\"\x7d\x7d]\x7d\n").data

/-- Second SSE line of the specification's compatible-adapter example. -/
def sseLine2 : List Char :=
  ("data: \x7b\"choices\":[\x7b\"delta\":\x7b\"content\":\" there\"\x7d\x7d]\x7d\n").data

/-- Terminating sentinel line of the compatible-adapter example. -/
def sseLine3 : List Char := ("data: [DONE]\n").data

/-- Sample failed HTTP response. -/
def sampleErrorResponse : FetchResponse :=
  { ok := false, status := 401, errorBody := "Unauthorized" }

/-- Sample successful HTTP response carrying the specification's
three-line SSE body in a single read. -/
def sampleOkResponse : FetchResponse :=
  { ok := true, status := 200, chunks := [sseLine1 ++ sseLine2 ++ sseLine3] }

/-- A complete `data:` line whose payload is not valid JSON. -/
def malformedLine : List Char := ("data: \x7b\"choices\":[").data

/-- Sample image-generation response with a base64 payload. -/
def sampleImageResponse : GenerateImagesResponse :=
  { generatedImages := some [{ image := some { imageBytes := some "QUJD" } }] }

/-- Sample image-generation response with no image payload. -/
def emptyImageResponse : GenerateImagesResponse := {}

/-! ### Helper lemmas: the split/pop line buffering -/

theorem splitLines_ne_nil (s : List Char) : splitLines s ≠ [] := by
  cases s with
  | nil => simp [splitLines]
  | cons c cs =>
    simp only [splitLines]
    split <;> simp

theorem scanLines_eq (s : List Char) :
    scanLines s = ((splitLines s).dropLast, (splitLines s).getLastD []) := by
  induction s with
  | nil => rfl
  | cons c cs ih =>
    obtain ⟨r0, rs, hr⟩ : ∃ r0 rs, splitLines cs = r0 :: rs := by
      cases h : splitLines cs with
      | nil => exact absurd h (splitLines_ne_nil cs)
      | cons a l => exact ⟨a, l, rfl⟩
    by_cases hc : c = '\n'
    · subst hc
      simp only [scanLines, splitLines, ih, hr, if_pos rfl]
      cases rs with
      | nil => simp [List.getLastD_cons]
      | cons r1 rs2 => simp [List.getLastD_cons]
    · simp only [scanLines, splitLines, ih, hr, if_neg hc]
      cases rs with
      | nil => simp [List.getLastD_cons]
      | cons r1 rs2 => simp [List.getLastD_cons]

theorem scanLines_append (xs ys : List Char) :
    scanLines (xs ++ ys)
      = ((scanLines xs).1 ++ (scanLines ((scanLines xs).2 ++ ys)).1,
         (scanLines ((scanLines xs).2 ++ ys)).2) := by
  induction xs with
  | nil => simp [scanLines]
  | cons x xs ih =>
    by_cases hx : x = '\n'
    · subst hx
      simp [scanLines, ih]
    · cases hA : (scanLines xs).1 with
      | nil =>
        have hB : scanLines (xs ++ ys)
            = ((scanLines ((scanLines xs).2 ++ ys)).1,
               (scanLines ((scanLines xs).2 ++ ys)).2) := by
          rw [ih, hA, List.nil_append]
        have hP : scanLines (x :: xs) = ([], x :: (scanLines xs).2) := by
          simp [scanLines, if_neg hx, hA]
        rw [List.cons_append, hP]
        simp only [List.nil_append, List.cons_append]
        simp only [scanLines, if_neg hx, hB]
      | cons a0 as =>
        have hB1 : (scanLines (xs ++ ys)).1
            = a0 :: (as ++ (scanLines ((scanLines xs).2 ++ ys)).1) := by
          rw [ih]; simp [hA]
        have hB2 : (scanLines (xs ++ ys)).2 = (scanLines ((scanLines xs).2 ++ ys)).2 := by
          rw [ih]
        have hP : scanLines (x :: xs) = ((x :: a0) :: as, (scanLines xs).2) := by
          simp [scanLines, if_neg hx, hA]
        rw [List.cons_append, hP]
        simp only [scanLines, if_neg hx, hB1, hB2]
        simp

theorem feedRead_eq_scan (st : (String × List String) × List Char) (chunk : List Char) :
    feedRead st chunk
      = ((scanLines (st.2 ++ chunk)).1.foldl processLine st.1,
         (scanLines (st.2 ++ chunk)).2) := by
  simp [feedRead, scanLines_eq]

theorem feedRead_append (st : (String × List String) × List Char) (c1 c2 : List Char) :
    feedRead (feedRead st c1) c2 = feedRead st (c1 ++ c2) := by
  simp only [feedRead_eq_scan]
  rw [← List.append_assoc, scanLines_append (st.2 ++ c1) c2]
  simp [List.foldl_append]

theorem processBody_flatten (cs : List (List Char)) :
    processBody cs = feedRead (("", []), []) cs.flatten := by
  have aux : ∀ (l : List (List Char)) (st), l ≠ [] →
      l.foldl feedRead st = feedRead st l.flatten := by
    intro l
    induction l with
    | nil => intro st h; exact absurd rfl h
    | cons c rest ih =>
      intro st _
      cases rest with
      | nil => simp
      | cons d ds =>
        rw [List.foldl_cons, ih _ (by simp), feedRead_append]
        simp
  cases cs with
  | nil => rfl
  | cons c rest => exact aux _ _ (by simp)

/-! ### Claim theorems -/

/-- Claim C1, counterexample: with transport chunks carrying the texts
`["Hi", "Hi there", "Hi there!"]`, the managed adapter does not invoke
`onChunk` with `"Hi"`, `"Hi there"`, `"Hi there!"` and does not resolve
with `"Hi there!"` — `streamGemini` runs `responseText += c.text`, so
each chunk's text is appended to the running total, not substituted for
it. -/
theorem geminiStream_replacement_refuted :
    ¬((geminiStream [some "Hi", some "Hi there", some "Hi there!"]).2
          = ["Hi", "Hi there", "Hi there!"]
        ∧ (geminiStream [some "Hi", some "Hi there", some "Hi there!"]).1
          = "Hi there!") := by
  decide

/-- Claim C1, amended: given a transport stream whose chunks carry the
texts `["Hi", "Hi there", "Hi there!"]`, the managed adapter invokes
`onChunk` exactly three times with `"Hi"`, `"HiHi there"`,
`"HiHi thereHi there!"` (each received chunk's text is appended to the
running total) and resolves with `"HiHi thereHi there!"`. -/
theorem geminiStream_append_semantics :
    geminiStream [some "Hi", some "Hi there", some "Hi there!"]
      = ("HiHi thereHi there!", ["Hi", "HiHi there", "HiHi thereHi there!"]) := by
  decide

/-- Claim C2: on the SSE body `data: {"choices":[{"delta":{"content":
"Hi"}}]}`, `data: {"choices":[{"delta":{"content":" there"}}]}`,
`data: [DONE]`, the compatible adapter invokes `onChunk` exactly twice
with `"Hi"` then `"Hi there"` (deltas appended), skips the `[DONE]`
sentinel without error, and resolves with `"Hi there"`. -/
theorem streamOpenAI_sse_example :
    streamOpenAI [] "Hi" sampleProvider sampleOkResponse
      = { fetched := true, request := some (messagesWithSystem [] "Hi")
          onChunkCalls := ["Hi", "Hi there"], outcome := Outcome.ok "Hi there" } := by
  decide

/-- Claim C3: first, the read loop's result is invariant under the way
the response byte stream is fragmented across reads (only the
concatenation matters); second, the accumulator is exactly the fold of
the line handler over the complete (newline-terminated) lines of the
whole stream — a `data:` line split by a read boundary is never parsed
before it is completed, and the unterminated trailing buffer fragment is
discarded at exhaustion. -/
theorem streamOpenAI_fragmentation_invariant :
    (∀ reads1 reads2 : List (List Char), reads1.flatten = reads2.flatten →
        processBody reads1 = processBody reads2)
    ∧ (∀ reads : List (List Char),
        (processBody reads).1
          = (splitLines reads.flatten).dropLast.foldl processLine ("", [])) := by
  constructor
  · intro r1 r2 h
    rw [processBody_flatten, processBody_flatten, h]
  · intro reads
    rw [processBody_flatten]
    simp [feedRead]

/-- Witness for C3: a fragmentation of the example body that splits the
first `data:` line mid-JSON yields the same result as a single read. -/
theorem streamOpenAI_fragmentation_invariant_witness :
    processBody [sseLine1.take 10, sseLine1.drop 10 ++ sseLine2.take 3,
        sseLine2.drop 3 ++ sseLine3]
      = processBody [sseLine1 ++ sseLine2 ++ sseLine3] :=
  streamOpenAI_fragmentation_invariant.1
    [sseLine1.take 10, sseLine1.drop 10 ++ sseLine2.take 3, sseLine2.drop 3 ++ sseLine3]
    [sseLine1 ++ sseLine2 ++ sseLine3] (by decide)

/-- Claim C4: in the managed adapter's projection of prior turns, the
turn at index `k` produces exactly `1 + len(images)` content parts when
it has images and exactly one text part when it has none — the text
part first, followed by the image parts in order. -/
theorem prevHistory_parts_shape (history : List ChatMessage) (k : Nat) (msg : ChatMessage)
    (h : history.dropLast[k]? = some msg) :
    ∃ t : GeminiContent, (prevHistory history)[k]? = some t
      ∧ t.parts = GeminiPart.text msg.text
          :: (msg.images.getD []).map (fun img => GeminiPart.inlineData "image/jpeg" img)
      ∧ t.parts.length = 1 + (msg.images.getD []).length := by
  have hparts : (geminiContentOf msg).parts
      = GeminiPart.text msg.text
          :: (msg.images.getD []).map (fun img => GeminiPart.inlineData "image/jpeg" img) := by
    cases him : msg.images with
    | none => simp [geminiContentOf, him]
    | some imgs =>
      cases imgs with
      | nil => simp [geminiContentOf, him]
      | cons i is => simp [geminiContentOf, him]
  refine ⟨geminiContentOf msg, ?_, hparts, ?_⟩
  · rw [prevHistory, List.getElem?_map, h]
    rfl
  · rw [hparts]
    simp [Nat.add_comm]

/-- Witness for C4 at a two-turn history whose first turn has two
images. -/
theorem prevHistory_parts_shape_witness :
    ∃ t : GeminiContent, (prevHistory [sampleUserMsg, sampleModelMsg])[0]? = some t
      ∧ t.parts = GeminiPart.text sampleUserMsg.text
          :: (sampleUserMsg.images.getD []).map
              (fun img => GeminiPart.inlineData "image/jpeg" img)
      ∧ t.parts.length = 1 + (sampleUserMsg.images.getD []).length :=
  prevHistory_parts_shape [sampleUserMsg, sampleModelMsg] 0 sampleUserMsg (by decide)

/-- Claim C5, counterexample: with no attached images the managed
adapter does not submit the new turn as a one-element list of content
parts — `parts.length === 1` makes it submit the bare text string
instead. -/
theorem sendMessagePayload_list_refuted :
    ¬ sendMessagePayload "Hi" [] = SendMessageArg.ofParts [GeminiPart.text "Hi"] := by
  decide

/-- Claim C5, amended: with at least one attached image the managed
adapter submits the new turn as an ordered list of content parts, text
part first followed by one image part per image; with no images it
submits the bare text string itself. -/
theorem sendMessagePayload_shape (newMessage : String) (newImages : List String) :
    (newImages = [] →
      sendMessagePayload newMessage newImages = SendMessageArg.ofString newMessage)
    ∧ (newImages ≠ [] →
      sendMessagePayload newMessage newImages
        = SendMessageArg.ofParts (GeminiPart.text newMessage
            :: newImages.map (fun img => GeminiPart.inlineData "image/jpeg" img))) := by
  constructor
  · intro h
    subst h
    rfl
  · intro h
    cases newImages with
    | nil => exact absurd rfl h
    | cons i is => rfl

/-- Witness for C5: one attached image yields the two-part list; the
hypothesis of the non-empty branch is discharged at `["IMG64"]`. -/
theorem sendMessagePayload_shape_witness :
    sendMessagePayload "Hi" ["IMG64"]
      = SendMessageArg.ofParts [GeminiPart.text "Hi",
          GeminiPart.inlineData "image/jpeg" "IMG64"] :=
  (sendMessagePayload_shape "Hi" ["IMG64"]).2 (by decide)

/-- Claim C6: with a missing/empty `apiKey` or `baseUrl`, the
compatible adapter fails immediately with the configuration error,
reaches no fetch, and makes zero `onChunk` invocations. -/
theorem streamOpenAI_config_guard (history : List ChatMessage) (newMessage : String)
    (provider : AIProvider) (response : FetchResponse)
    (h : strFalsy provider.apiKey = true ∨ strFalsy provider.baseUrl = true) :
    streamOpenAI history newMessage provider response
      = { fetched := false, request := none, onChunkCalls := []
          outcome := Outcome.error "API Key or Base URL missing for custom provider." } := by
  rcases h with h | h <;> simp [streamOpenAI, h]

/-- Witness for C6: the keyless provider triggers the guard. -/
theorem streamOpenAI_config_guard_witness :
    streamOpenAI [] "Hi" keylessProvider sampleOkResponse
      = { fetched := false, request := none, onChunkCalls := []
          outcome := Outcome.error "API Key or Base URL missing for custom provider." } :=
  streamOpenAI_config_guard [] "Hi" keylessProvider sampleOkResponse (Or.inl (by decide))

/-- Claim C7: a non-success HTTP status makes the compatible adapter
fail with an error message containing both the numeric status code and
the raw body text, with no partial result and zero `onChunk`
invocations. -/
theorem streamOpenAI_http_error (history : List ChatMessage) (newMessage : String)
    (provider : AIProvider) (response : FetchResponse)
    (hk : strFalsy provider.apiKey = false) (hu : strFalsy provider.baseUrl = false)
    (hok : response.ok = false) :
    ∃ msg : String,
      streamOpenAI history newMessage provider response
        = { fetched := true, request := some (messagesWithSystem history newMessage)
            onChunkCalls := [], outcome := Outcome.error msg }
      ∧ occursIn (toString response.status).data msg.data
      ∧ occursIn response.errorBody.data msg.data := by
  refine ⟨"Provider Error (" ++ toString response.status ++ "): " ++ response.errorBody,
    ?_, ?_, ?_⟩
  · simp [streamOpenAI, hk, hu, hok]
  · refine ⟨"Provider Error (".data, ("): " ++ response.errorBody).data, ?_⟩
    simp [List.append_assoc]
  · refine ⟨("Provider Error (" ++ toString response.status ++ "): ").data, [], ?_⟩
    simp [List.append_assoc]

/-- Witness for C7 at a concrete 401 response. -/
theorem streamOpenAI_http_error_witness :
    ∃ msg : String,
      streamOpenAI [] "Hi" sampleProvider sampleErrorResponse
        = { fetched := true, request := some (messagesWithSystem [] "Hi")
            onChunkCalls := [], outcome := Outcome.error msg }
      ∧ occursIn (toString sampleErrorResponse.status).data msg.data
      ∧ occursIn sampleErrorResponse.errorBody.data msg.data :=
  streamOpenAI_http_error [] "Hi" sampleProvider sampleErrorResponse
    (by decide) (by decide) (by decide)

/-- Claim C8: a complete `data:` line whose payload fails `JSON.parse`
does not raise, leaves the accumulator (and `onChunk` trace) unchanged,
and the remaining lines are processed exactly as if it were absent. -/
theorem processLine_malformed (acc : String × List String) (line : List Char)
    (h : jsonParse (replaceFirst "data: ".data (jsTrim line)) = none) :
    processLine acc line = acc
    ∧ ∀ rest : List (List Char),
        List.foldl processLine acc (line :: rest) = List.foldl processLine acc rest := by
  have h1 : processLine acc line = acc := by
    by_cases hg : (listStartsWith "data: ".data (jsTrim line)
        && (jsTrim line) != "data: [DONE]".data) = true
    · simp [processLine, hg, h]
    · simp [processLine, hg]
  exact ⟨h1, fun rest => by rw [List.foldl_cons, h1]⟩

/-- Witness for C8: a truncated-JSON `data:` line leaves the state
unchanged and a valid line after it is processed as usual. -/
theorem processLine_malformed_witness :
    processLine ("Hi", ["Hi"]) malformedLine = ("Hi", ["Hi"])
    ∧ List.foldl processLine ("Hi", ["Hi"]) (malformedLine :: [sseLine2])
        = List.foldl processLine ("Hi", ["Hi"]) [sseLine2] :=
  ⟨(processLine_malformed ("Hi", ["Hi"]) malformedLine (by rfl)).1,
   (processLine_malformed ("Hi", ["Hi"]) malformedLine (by rfl)).2 [sseLine2]⟩

/-- Claim C9: `generateImage` requests exactly one JPEG image with the
caller's aspect ratio; when the backend returns a (truthy) base64
payload it resolves with that payload behind the
`data:image/jpeg;base64,` prefix, and when the response carries no
image payload it fails with the descriptive `No image generated`
error. -/
theorem generateImage_contract (prompt : String) (aspectRatio : String) :
    (generateImageRequest prompt aspectRatio).config.numberOfImages = 1
    ∧ (generateImageRequest prompt aspectRatio).config.outputMimeType = "image/jpeg"
    ∧ (generateImageRequest prompt aspectRatio).config.aspectRatio = aspectRatio
    ∧ (∀ response : GenerateImagesResponse, ∀ b : String,
        extractImageBytes response = some b → b ≠ "" →
          generateImage prompt aspectRatio response
            = Outcome.ok ("data:image/jpeg;base64," ++ b))
    ∧ (∀ response : GenerateImagesResponse,
        strFalsy (extractImageBytes response) = true →
          generateImage prompt aspectRatio response
            = Outcome.error "No image generated") := by
  refine ⟨rfl, rfl, rfl, ?_, ?_⟩
  · intro response b hb hne
    have hf : strFalsy (some b) = false := by
      simpa [strFalsy] using hne
    simp [generateImage, hb, hf]
  · intro response hf
    simp [generateImage, hf]

/-- Witness for C9: a response carrying bytes `"QUJD"` resolves with
the data URI, and the empty response fails. -/
theorem generateImage_contract_witness :
    ((generateImageRequest "a cat" "16:9").config.numberOfImages = 1
      ∧ generateImage "a cat" "16:9" sampleImageResponse
          = Outcome.ok ("data:image/jpeg;base64," ++ "QUJD"))
    ∧ generateImage "a cat" "16:9" emptyImageResponse
        = Outcome.error "No image generated" :=
  ⟨⟨(generateImage_contract "a cat" "16:9").1,
    (generateImage_contract "a cat" "16:9").2.2.2.1 sampleImageResponse "QUJD"
      (by rfl) (by decide)⟩,
   (generateImage_contract "a cat" "16:9").2.2.2.2 emptyImageResponse (by decide)⟩

/-- Claim C10: for a history whose last element is the in-flight new
user turn, the compatible adapter projects every history turn
(including that last element) and appends the new user message again —
so the new text occurs twice beyond the older turns' contribution —
while the managed adapter's prior-turn projection drops the last
element, and its outgoing payload carries exactly one text part with
the new text. -/
theorem adapters_history_asymmetry (hist0 : List ChatMessage) (newMsg : ChatMessage) :
    (apiMessages (hist0 ++ [newMsg]) newMsg.text).length = (hist0 ++ [newMsg]).length + 1
    ∧ (apiMessages (hist0 ++ [newMsg]) newMsg.text).countP
        (fun m => m.content == newMsg.text)
      = 2 + (hist0.map oaiMessageOf).countP (fun m => m.content == newMsg.text)
    ∧ prevHistory (hist0 ++ [newMsg]) = hist0.map geminiContentOf
    ∧ (prevHistory (hist0 ++ [newMsg])).length = hist0.length
    ∧ ∀ newImages : List String,
        (newTurnParts newMsg.text newImages).countP
          (fun p => p == GeminiPart.text newMsg.text) = 1 := by
  refine ⟨?_, ?_, ?_, ?_, ?_⟩
  · simp [apiMessages]
  · simp [apiMessages, oaiMessageOf, List.countP_append, List.countP_cons]
    omega
  · simp [prevHistory]
  · simp [prevHistory]
  · intro newImages
    rw [newTurnParts, List.countP_cons]
    have hz : (newImages.map (fun img => GeminiPart.inlineData "image/jpeg" img)).countP
        (fun p => p == GeminiPart.text newMsg.text) = 0 := by
      rw [List.countP_eq_zero]
      intro p hp
      obtain ⟨img, _, rfl⟩ := List.mem_map.mp hp
      simp
    rw [hz]
    simp

end Studio
